import Mathlib

/-!
Verification of the G-code sender core of `cnc_suite` (`sender.py`).

Lines of text are modelled as `List Char`; a whole file is a `List (List Char)`
(the result of `splitlines`, so individual lines contain no newline).
Python's regular expressions are embedded by hand:

* `GCODE_LINE_RE = ^\s*([GMT]\d+|;|#|\()` used by `is_gcode_line`;
* `COMMENT_RE = \s*(;.*|\(.*\))\s*$` used (via `re.sub`) by `strip_comment`;
* `[XYZ]-?\d+\.?\d*` used (via `re.findall`) by the tool-marker update in `_tick`.

Whitespace (`\s`, `str.strip`) is modelled by the ASCII whitespace class
(space, tab, newline, carriage return, vertical tab, form feed); digits
(`\d`, `str.isdigit`) by the ASCII digits.  Numeric axis values (Python
`float(...)` of a decimal literal) are modelled exactly as rationals.
-/

namespace CncSender

/-- Python's `\s` / `str.strip` whitespace class (ASCII part). -/
def isSpace (c : Char) : Bool :=
  c = ' ' || c = '\t' || c = '\n' || c = '\r' || c = '\x0b' || c = '\x0c'

/-- Remove trailing whitespace. -/
def rstrip : List Char → List Char
  | [] => []
  | c :: r =>
    match rstrip r with
    | [] => if isSpace c then [] else [c]
    | d :: r2 => c :: d :: r2

/-- Python `str.strip()`: remove leading and trailing whitespace. -/
def strip (l : List Char) : List Char :=
  rstrip (l.dropWhile isSpace)

/-- `\d` matches at the head of the list (used for the `\d+` part of
`[GMT]\d+`: one digit at the head is enough for the regex to succeed). -/
def isDigitStart : List Char → Bool
  | [] => false
  | c :: _ => c.isDigit

/-- `GCODE_LINE_RE.match`: `^\s*([GMT]\d+|;|#|\()` anchored at the start. -/
def gcodeHead : List Char → Bool
  | [] => false
  | c :: r =>
    if isSpace c then gcodeHead r
    else if c = 'G' || c = 'M' || c = 'T' then isDigitStart r
    else c = ';' || c = '#' || c = '('

/-- `l.startswith(a)` for a single character `a`. -/
def startsWithChar (l : List Char) (a : Char) : Bool :=
  match l with
  | [] => false
  | c :: _ => c = a

/-- `is_gcode_line` from `sender.py`:
`ln = line.strip(); return bool(ln and not ln.startswith((';', '(')) and GCODE_LINE_RE.match(ln))`. -/
def is_gcode_line (line : List Char) : Bool :=
  let ln := strip line
  !ln.isEmpty && !(startsWithChar ln ';' || startsWithChar ln '(') && gcodeHead ln

/-- `\(.*\)\s*$` continuation: some later `)` is followed only by whitespace. -/
def wsTailAfterClose : List Char → Bool
  | [] => false
  | c :: r => (c = ')' && r.all isSpace) || wsTailAfterClose r

/-- `COMMENT_RE` can match starting at this suffix once its leading `\s*` has
been consumed: either a `;` (branch `;.*`, which always reaches `$`), or a `(`
whose suffix contains a `)` followed only by whitespace (branch `\(.*\)\s*$`). -/
def commentStart : List Char → Bool
  | [] => false
  | c :: r => c = ';' || (c = '(' && wsTailAfterClose r)

/-- The effect of `COMMENT_RE.sub("", line)` up to trailing whitespace: the
pattern is anchored at `$`, so `re.sub` performs exactly one substitution,
erasing everything from the leftmost match to the end of the line.  The
leftmost match starts at the first position satisfying `commentStart`, less
the run of whitespace immediately before it (absorbed by the leading `\s*`);
since the result is `.strip()`ped afterwards, cutting at the `commentStart`
position itself yields the same final string. -/
def dropFromComment : List Char → List Char
  | [] => []
  | c :: r => if commentStart (c :: r) then [] else c :: dropFromComment r

/-- `strip_comment` from `sender.py`: `COMMENT_RE.sub("", line).strip()`. -/
def strip_comment (line : List Char) : List Char :=
  strip (dropFromComment line)

/-- The list-comprehension body of `open_gcode`:
`[strip_comment(l) for l in raw if is_gcode_line(l)]`. -/
def loadLines (raw : List (List Char)) : List (List Char) :=
  (raw.filter (fun l => is_gcode_line l)).map strip_comment

/-! ## Tool-marker coordinate extraction

`_tick` runs `re.findall(r"[XYZ]-?\d+\.?\d*", line.upper())`, builds the dict
`{c[0]: float(c[1:]) for c in m}` (so for a repeated axis letter the last
match wins), and reads each axis with default `0.0`. -/

/-- Axis letters recognised by the tool-marker regex (the line has already
been upper-cased). -/
def axisChar (c : Char) : Bool :=
  c = 'X' || c = 'Y' || c = 'Z'

/-- Maximal run of `\d` at the head: returns (digits, remainder). -/
def parseDigits : List Char → List Char × List Char
  | [] => ([], [])
  | c :: r =>
    if c.isDigit then
      let p := parseDigits r
      (c :: p.1, p.2)
    else ([], c :: r)

/-- Decimal digit string to its numeric value. -/
def digitsToNat (ds : List Char) : Nat :=
  ds.foldl (fun n c => 10 * n + (c.toNat - '0'.toNat)) 0

/-- Python `float` of the matched token `-?\d+\.?\d*`, modelled exactly as a
rational: integer part plus fractional digits over the matching power of 10. -/
def tokenVal (neg : Bool) (ds fs : List Char) : ℚ :=
  let q : ℚ := (digitsToNat ds : ℚ) + (digitsToNat fs : ℚ) / (10 : ℚ) ^ fs.length
  if neg then -q else q

/-- Match `-?\d+\.?\d*` at the head of the list (the part of the token after
the axis letter): optional minus, at least one digit, optional dot, then any
number of digits.  Returns the value and the unconsumed remainder. -/
def matchNum (l : List Char) : Option (ℚ × List Char) :=
  let s1 : Bool × List Char :=
    match l with
    | '-' :: r => (true, r)
    | _ => (false, l)
  let p1 := parseDigits s1.2
  if p1.1.isEmpty then none
  else
    let p2 : List Char × List Char :=
      match p1.2 with
      | '.' :: r2 => parseDigits r2
      | _ => ([], p1.2)
    some (tokenVal s1.1 p1.1 p2.1, p2.2)

/-- `re.findall` scan: left to right, non-overlapping; on a failed attempt the
scan resumes one character later, on a successful match it resumes after the
match.  The fuel argument only serves termination: every step removes at least
the head character from the list (`matchNum` returns a suffix of its input),
so `fuel = length` never runs out before the list does. -/
def scanCoordsF : Nat → List Char → List (Char × ℚ)
  | _, [] => []
  | 0, _ :: _ => []
  | fuel + 1, c :: r =>
    if axisChar c then
      match matchNum r with
      | some p => (c, p.1) :: scanCoordsF fuel p.2
      | none => scanCoordsF fuel r
    else scanCoordsF fuel r

/-- All `[XYZ]-?\d+\.?\d*` matches of the line, in order. -/
def scanCoords (l : List Char) : List (Char × ℚ) :=
  scanCoordsF l.length l

/-- `coords.get(a, 0.0)` where `coords` is the dict built from the match list
(later matches overwrite earlier ones, hence the reversed search). -/
def lastVal (ps : List (Char × ℚ)) (a : Char) : ℚ :=
  match ps.reverse.find? (fun p => p.1 = a) with
  | some p => p.2
  | none => 0

/-- The (x, y, z) passed to `preview.update_tool` for a sent line. -/
def toolFromLine (line : List Char) : ℚ × ℚ × ℚ :=
  let ps := scanCoords (line.map Char.toUpper)
  (lastVal ps 'X', lastVal ps 'Y', lastVal ps 'Z')

/-! ## The sender state machine -/

/-- The `SenderState` dataclass of `sender.py`. -/
structure SenderState where
  gcode_lines : List (List Char)
  index : Nat
  running : Bool
  paused : Bool
  ok_to_send : Bool
deriving DecidableEq, Repr

/-- `SenderState(gcode_lines=[])`, built in `GCodeSenderWindow.__init__`
(dataclass defaults: `index=0, running=False, paused=False, ok_to_send=True`). -/
def initState : SenderState :=
  ⟨[], 0, false, false, true⟩

/-- The state produced by a successful `open_gcode` on source lines `raw`:
`self.state = SenderState(gcode_lines=lines)` with
`lines = [strip_comment(l) for l in raw if is_gcode_line(l)]`. -/
def load (raw : List (List Char)) : SenderState :=
  ⟨loadLines raw, 0, false, false, true⟩

/-- `start_sending`; `conn` stands for `self.worker and self.worker.is_connected`.
Both guard failures show a warning and return without touching the state. -/
def start_sending (conn : Bool) (s : SenderState) : SenderState :=
  if !conn then s
  else if s.gcode_lines.isEmpty then s
  else { s with running := true, paused := false, ok_to_send := true }

/-- `pause_sending`: no-op unless running, otherwise toggles `paused`. -/
def pause_sending (s : SenderState) : SenderState :=
  if !s.running then s else { s with paused := !s.paused }

/-- `stop_sending`'s effect on the `SenderState` fields (it additionally stops
the worker and the timer; the worker effect is modelled in `System` below). -/
def stop_sending (s : SenderState) : SenderState :=
  { s with running := false, paused := false, ok_to_send := true }

/-- `line.strip().lower().startswith("ok")`. -/
def okLine (line : List Char) : Bool :=
  match (strip line).map Char.toLower with
  | 'o' :: 'k' :: _ => true
  | _ => false

/-- `on_line_received`: opens the flow-control gate iff the trimmed,
lower-cased line starts with "ok" (the log append does not touch the state). -/
def on_line_received (line : List Char) (s : SenderState) : SenderState :=
  if okLine line then { s with ok_to_send := true } else s

/-- Everything one `_tick` call does, beyond the new state: `sent` is the line
handed to `worker.send_line` (only when connected), `emitted` the line logged
with "→" (i.e. consumed from the program), `toolPos` the position given to
`preview.update_tool`, `fakeAck` whether a synthetic "ok" was scheduled via
`QTimer.singleShot`, and `completed` whether the completion branch ran. -/
structure TickResult where
  state : SenderState
  sent : Option (List Char)
  emitted : Option (List Char)
  toolPos : Option (ℚ × ℚ × ℚ)
  fakeAck : Bool
  completed : Bool
deriving DecidableEq, Repr

/-- `_tick` from `sender.py`; `conn` stands for
`self.worker and self.worker.is_connected`. -/
def tick (conn : Bool) (s : SenderState) : TickResult :=
  if !s.running || s.paused then ⟨s, none, none, none, false, false⟩
  else if !s.ok_to_send then ⟨s, none, none, none, false, false⟩
  else if s.gcode_lines.length ≤ s.index then
    ⟨stop_sending s, none, none, none, false, true⟩
  else
    let line := s.gcode_lines.getD s.index []
    ⟨{ s with ok_to_send := false, index := s.index + 1 },
      if conn then some line else none,
      some line,
      some (toolFromLine line),
      !conn,
      false⟩

/-- `n` consecutive `_tick` invocations (state part only). -/
def tickN (conn : Bool) : Nat → SenderState → SenderState
  | 0, s => s
  | n + 1, s => tickN conn n (tick conn s).state

/-- The operations that mutate `self.state`, as events. -/
inductive Ev where
  | load (raw : List (List Char))
  | start (conn : Bool)
  | pause
  | stop
  | onLine (line : List Char)
  | tick (conn : Bool)

/-- One event's effect on the sender state. -/
def stepEv (e : Ev) (s : SenderState) : SenderState :=
  match e with
  | .load raw => load raw
  | .start conn => start_sending conn s
  | .pause => pause_sending s
  | .stop => stop_sending s
  | .onLine line => on_line_received line s
  | .tick conn => (tick conn s).state

/-- States reachable from the freshly constructed window. -/
inductive Reachable : SenderState → Prop where
  | init : Reachable initState
  | step (s : SenderState) (e : Ev) : Reachable s → Reachable (stepEv e s)

/-! ## Window + worker (for the claims about the transport connection)

`worker = none` models `self.worker is None`; `worker = some b` models an
existing `SerialWorker` whose `is_connected` (= `_running`) equals `b`.
`worker.stop()` sets `_running = False` synchronously. -/

structure System where
  sender : SenderState
  worker : Option Bool
deriving DecidableEq, Repr

/-- `self.worker and self.worker.is_connected`. -/
def sysConn (y : System) : Bool :=
  y.worker.getD false

/-- `stop_sending`, including `if self.worker: self.worker.stop()`. -/
def sysStop (y : System) : System :=
  ⟨stop_sending y.sender, y.worker.map (fun _ => false)⟩

/-- `start_sending` at window level. -/
def sysStart (y : System) : System :=
  ⟨start_sending (sysConn y) y.sender, y.worker⟩

/-- A successful `connect_serial`: a new worker whose run loop has started
(`connected.emit(True)`), i.e. `is_connected` is true. -/
def sysConnect (y : System) : System :=
  ⟨y.sender, some true⟩

/-- `_tick` at window level: the completion branch calls `stop_sending`,
which also stops the worker. -/
def sysTick (y : System) : System :=
  let r := tick (sysConn y) y.sender
  ⟨r.state, if r.completed then y.worker.map (fun _ => false) else y.worker⟩

/-! ## Branch lemmas for `tick` -/

/-- `_tick` returns immediately when not running. -/
theorem tick_not_running (conn : Bool) (s : SenderState) (h : s.running = false) :
    tick conn s = ⟨s, none, none, none, false, false⟩ := by
  unfold tick
  simp [h]

/-- `_tick` returns immediately when paused. -/
theorem tick_paused (conn : Bool) (s : SenderState) (h : s.paused = true) :
    tick conn s = ⟨s, none, none, none, false, false⟩ := by
  unfold tick
  simp [h]

/-- `_tick` returns immediately while the flow-control gate is closed. -/
theorem tick_gate_closed (conn : Bool) (s : SenderState) (h : s.ok_to_send = false) :
    tick conn s = ⟨s, none, none, none, false, false⟩ := by
  unfold tick
  simp [h]

/-- The completion branch of `_tick`: eligible to send but the program is
exhausted, so it logs "Completed." and calls `stop_sending`. -/
theorem tick_completed (conn : Bool) (s : SenderState)
    (hr : s.running = true) (hp : s.paused = false) (hok : s.ok_to_send = true)
    (hdone : s.gcode_lines.length ≤ s.index) :
    tick conn s = ⟨stop_sending s, none, none, none, false, true⟩ := by
  unfold tick
  simp [hr, hp, hok, hdone]

/-- The sending branch of `_tick`: eligible and a line remains. -/
theorem tick_eligible (conn : Bool) (s : SenderState)
    (hr : s.running = true) (hp : s.paused = false) (hok : s.ok_to_send = true)
    (hlt : s.index < s.gcode_lines.length) :
    tick conn s = ⟨{ s with ok_to_send := false, index := s.index + 1 },
      if conn then some (s.gcode_lines.getD s.index []) else none,
      some (s.gcode_lines.getD s.index []),
      some (toolFromLine (s.gcode_lines.getD s.index [])),
      !conn, false⟩ := by
  unfold tick
  simp [hr, hp, hok, Nat.not_le.mpr hlt]

/-! ## C4: ticks while disconnected -/

/-- C4 (counterexample): the claim says that with the transport worker absent
or disconnected, `_tick` "does not consume program[index], does not advance
index".  Starting from a running state with one loaded line, the gate open,
and no connection, one `_tick` advances `index` from 0 to 1 and consumes (logs)
the line: the code streams on without a worker. -/
theorem C4_counterexample :
    (tick false ⟨["G1 X1".toList], 0, true, false, true⟩).state.index = 1 ∧
    (tick false ⟨["G1 X1".toList], 0, true, false, true⟩).emitted = some ("G1 X1".toList) := by
  decide

/-- C4 (amended): when the transport worker is absent or disconnected, an
eligible `_tick` does not hand the line to a worker (`sent = none`), but it
still consumes `program[index]`, logs it, advances `index` by one, closes the
`ok_to_send` gate, and schedules a synthetic "ok" acknowledgment via
`QTimer.singleShot`, so streaming continues as a dry run. -/
theorem C4_disconnected_tick (s : SenderState)
    (hr : s.running = true) (hp : s.paused = false) (hok : s.ok_to_send = true)
    (hlt : s.index < s.gcode_lines.length) :
    (tick false s).sent = none ∧
    (tick false s).emitted = some (s.gcode_lines.getD s.index []) ∧
    (tick false s).state.index = s.index + 1 ∧
    (tick false s).state.ok_to_send = false ∧
    (tick false s).fakeAck = true := by
  rw [tick_eligible false s hr hp hok hlt]
  exact ⟨rfl, rfl, rfl, rfl, rfl⟩

/-- C4 witness: the amended behaviour at a concrete disconnected state. -/
theorem C4_witness :
    (tick false ⟨["G0 X1".toList, "G1 Y2".toList], 1, true, false, true⟩).sent = none ∧
    (tick false ⟨["G0 X1".toList, "G1 Y2".toList], 1, true, false, true⟩).emitted =
      some (["G0 X1".toList, "G1 Y2".toList].getD 1 []) ∧
    (tick false ⟨["G0 X1".toList, "G1 Y2".toList], 1, true, false, true⟩).state.index = 1 + 1 ∧
    (tick false ⟨["G0 X1".toList, "G1 Y2".toList], 1, true, false, true⟩).state.ok_to_send = false ∧
    (tick false ⟨["G0 X1".toList, "G1 Y2".toList], 1, true, false, true⟩).fakeAck = true :=
  C4_disconnected_tick ⟨["G0 X1".toList, "G1 Y2".toList], 1, true, false, true⟩
    rfl rfl rfl (by decide)

/-! ## C7: completion -/

/-- Any `_tick` from a state whose program is exhausted sends nothing and
leaves `gcode_lines` and `index` unchanged. -/
theorem tick_done (conn : Bool) (s : SenderState)
    (h : s.gcode_lines.length ≤ s.index) :
    (tick conn s).emitted = none ∧
    (tick conn s).state.gcode_lines = s.gcode_lines ∧
    (tick conn s).state.index = s.index := by
  cases hr : s.running with
  | false => rw [tick_not_running conn s hr]; exact ⟨rfl, rfl, rfl⟩
  | true =>
    cases hp : s.paused with
    | true => rw [tick_paused conn s hp]; exact ⟨rfl, rfl, rfl⟩
    | false =>
      cases hok : s.ok_to_send with
      | false => rw [tick_gate_closed conn s hok]; exact ⟨rfl, rfl, rfl⟩
      | true => rw [tick_completed conn s hr hp hok h]; exact ⟨rfl, rfl, rfl⟩

/-- C7: once `index` has reached `length(program)`, the next eligible `_tick`
transitions to idle (`running = false`, completion branch taken), and no
further program line is ever emitted no matter how many more `_tick` calls
follow. -/
theorem C7_completion (s : SenderState) (conn : Bool)
    (h : s.gcode_lines.length ≤ s.index) :
    (s.running = true → s.paused = false → s.ok_to_send = true →
      (tick conn s).state.running = false ∧ (tick conn s).completed = true)
    ∧ ∀ n, (tick conn (tickN conn n s)).emitted = none := by
  constructor
  · intro hr hp hok
    rw [tick_completed conn s hr hp hok h]
    exact ⟨rfl, rfl⟩
  · have key : ∀ n t, t.gcode_lines.length ≤ t.index →
        (tickN conn n t).gcode_lines.length ≤ (tickN conn n t).index ∧
        (tick conn (tickN conn n t)).emitted = none := by
      intro n
      induction n with
      | zero => intro t ht; exact ⟨ht, (tick_done conn t ht).1⟩
      | succ n ih =>
        intro t ht
        have hd := tick_done conn t ht
        have ht2 : (tick conn t).state.gcode_lines.length ≤ (tick conn t).state.index := by
          rw [hd.2.1, hd.2.2]; exact ht
        simpa [tickN] using ih (tick conn t).state ht2
    intro n
    exact (key n s h).2

/-- C7 witness: a concrete exhausted state; the eligible tick goes idle, and
the third subsequent tick still emits nothing. -/
theorem C7_witness :
    ((tick true ⟨["G1 X1".toList], 1, true, false, true⟩).state.running = false ∧
      (tick true ⟨["G1 X1".toList], 1, true, false, true⟩).completed = true) ∧
    (tick true (tickN true 3 ⟨["G1 X1".toList], 1, true, false, true⟩)).emitted = none :=
  ⟨(C7_completion ⟨["G1 X1".toList], 1, true, false, true⟩ true (by decide)).1 rfl rfl rfl,
   (C7_completion ⟨["G1 X1".toList], 1, true, false, true⟩ true (by decide)).2 3⟩

/-! ## C10: stopping kills the connection -/

/-- C10: `stop_sending` stops the worker, so afterwards (also after the
automatic stop `_tick` performs on completion) `is_connected` is false, a
subsequent `start_sending` is rejected without touching the state, and a new
`connect_serial` restores a connected worker. -/
theorem C10_stop_disconnects (y : System) :
    sysConn (sysStop y) = false
    ∧ ((tick (sysConn y) y.sender).completed = true → sysConn (sysTick y) = false)
    ∧ (sysConn y = false → (sysStart y).sender = y.sender)
    ∧ sysConn (sysConnect y) = true := by
  refine ⟨?_, ?_, ?_, rfl⟩
  · cases h : y.worker with
    | none => simp [sysStop, sysConn, h]
    | some b => simp [sysStop, sysConn, h]
  · intro hc
    cases h : y.worker with
    | none => simp [sysTick, sysConn, h]
    | some b =>
      have hb : sysConn y = b := by simp [sysConn, h]
      rw [hb] at hc
      simp [sysTick, sysConn, h, hb, hc]
  · intro hc
    simp [sysStart, start_sending, hc]

/-- C10 witness: completion tick on a connected system leaves it disconnected;
a start on a stopped worker is rejected. -/
theorem C10_witness :
    sysConn (sysTick ⟨⟨["G1 X1".toList], 1, true, false, true⟩, some true⟩) = false ∧
    (sysStart ⟨initState, some false⟩).sender = initState :=
  ⟨(C10_stop_disconnects ⟨⟨["G1 X1".toList], 1, true, false, true⟩, some true⟩).2.1 (by decide),
   (C10_stop_disconnects ⟨initState, some false⟩).2.2.1 rfl⟩

/-! ## C6: stop, reset index, start again -/

/-- The scenario step of C6: `stop_sending`, then the stipulated explicit
reset of `index` to 0 (no code path performs this reset short of reloading). -/
def stopThenReset (y : System) : System :=
  ⟨{ (sysStop y).sender with index := 0 }, (sysStop y).worker⟩

/-- C6 (counterexample): the claim says stop-then-start (with `index` reset
to 0) "succeeds".  It does not: `stop_sending` stops the serial worker, so
the immediate `start_sending` hits the not-connected guard and is rejected;
the machine stays idle and the next tick sends nothing. -/
theorem C6_counterexample :
    (sysStart (stopThenReset ⟨⟨["G1 X1".toList, "G1 X2".toList], 1, true, false, true⟩, some true⟩)).sender.running = false ∧
    (tick (sysConn (sysStart (stopThenReset ⟨⟨["G1 X1".toList, "G1 X2".toList], 1, true, false, true⟩, some true⟩)))
      (sysStart (stopThenReset ⟨⟨["G1 X1".toList, "G1 X2".toList], 1, true, false, true⟩, some true⟩)).sender).emitted = none := by
  decide

/-- C6 (amended): after `stop_sending` mid-stream, resetting `index` to 0 and
re-establishing the connection (`stop_sending` stopped the worker, so
`connect_serial` must run again), `start_sending` succeeds and the next tick
re-sends the program from its first line, not from the stopped position. -/
theorem C6_restart_from_first (y : System) (h : y.sender.gcode_lines ≠ []) :
    (sysStart (sysConnect (stopThenReset y))).sender.running = true ∧
    (tick (sysConn (sysStart (sysConnect (stopThenReset y))))
        (sysStart (sysConnect (stopThenReset y))).sender).emitted =
      some (y.sender.gcode_lines.getD 0 []) ∧
    (tick (sysConn (sysStart (sysConnect (stopThenReset y))))
        (sysStart (sysConnect (stopThenReset y))).sender).state.index = 1 := by
  have hne : y.sender.gcode_lines.isEmpty = false := by
    cases hg : y.sender.gcode_lines with
    | nil => exact absurd hg h
    | cons a t => rfl
  have hstart : (sysStart (sysConnect (stopThenReset y))).sender =
      { y.sender with index := 0, running := true, paused := false, ok_to_send := true } := by
    simp [sysStart, sysConnect, stopThenReset, sysStop, sysConn, start_sending,
      stop_sending, hne]
  have hconn : sysConn (sysStart (sysConnect (stopThenReset y))) = true := by
    simp [sysStart, sysConnect, stopThenReset, sysStop, sysConn]
  rw [hstart, hconn]
  have hlt : (0 : Nat) < y.sender.gcode_lines.length := by
    cases hg : y.sender.gcode_lines with
    | nil => exact absurd hg h
    | cons a t => simp
  rw [tick_eligible true _ rfl rfl rfl (by simpa using hlt)]
  exact ⟨rfl, rfl, rfl⟩

/-- C6 witness: the amended restart scenario at a concrete stopped system. -/
theorem C6_witness :
    (sysStart (sysConnect (stopThenReset ⟨⟨["G1 X1".toList, "G1 X2".toList], 1, true, false, true⟩, some true⟩))).sender.running = true ∧
    (tick (sysConn (sysStart (sysConnect (stopThenReset ⟨⟨["G1 X1".toList, "G1 X2".toList], 1, true, false, true⟩, some true⟩))))
        (sysStart (sysConnect (stopThenReset ⟨⟨["G1 X1".toList, "G1 X2".toList], 1, true, false, true⟩, some true⟩))).sender).emitted =
      some (["G1 X1".toList, "G1 X2".toList].getD 0 []) ∧
    (tick (sysConn (sysStart (sysConnect (stopThenReset ⟨⟨["G1 X1".toList, "G1 X2".toList], 1, true, false, true⟩, some true⟩))))
        (sysStart (sysConnect (stopThenReset ⟨⟨["G1 X1".toList, "G1 X2".toList], 1, true, false, true⟩, some true⟩))).sender).state.index = 1 :=
  C6_restart_from_first ⟨⟨["G1 X1".toList, "G1 X2".toList], 1, true, false, true⟩, some true⟩
    (by decide)

/-! ## C1: the flow-control gate -/

/-- `pause_sending` never touches the flow-control gate. -/
theorem pause_preserves_gate (s : SenderState) :
    (pause_sending s).ok_to_send = s.ok_to_send := by
  unfold pause_sending
  split
  · rfl
  · rfl

/-- C1: the single-slot flow-control discipline.  The gate `ok_to_send` can
become true only through an inbound line whose trimmed, case-folded form
starts with "ok", or through the resets done by `load`/`start`/`stop` (the
completion branch of `_tick` goes through `stop_sending` and needs the gate
already open); and whenever `_tick` emits a line it does so with the gate
open and leaves it closed, so at most one queued line is outstanding without
an acknowledgment. -/
theorem C1_gate_discipline (s : SenderState) (e : Ev) :
    ((stepEv e s).ok_to_send = true →
      s.ok_to_send = true
      ∨ (∃ raw, e = Ev.load raw)
      ∨ (∃ c, e = Ev.start c)
      ∨ e = Ev.stop
      ∨ ∃ line, e = Ev.onLine line ∧ okLine line = true)
    ∧ ∀ conn, (tick conn s).emitted ≠ none →
        (tick conn s).state.ok_to_send = false ∧ s.ok_to_send = true := by
  constructor
  · intro hgate
    cases e with
    | load raw => exact Or.inr (Or.inl ⟨raw, rfl⟩)
    | start conn => exact Or.inr (Or.inr (Or.inl ⟨conn, rfl⟩))
    | pause =>
      left
      rw [← pause_preserves_gate s]
      exact hgate
    | stop => exact Or.inr (Or.inr (Or.inr (Or.inl rfl)))
    | onLine line =>
      cases hok : okLine line with
      | true => exact Or.inr (Or.inr (Or.inr (Or.inr ⟨line, rfl, hok⟩)))
      | false =>
        left
        have hid : stepEv (Ev.onLine line) s = s := by
          simp [stepEv, on_line_received, hok]
        rwa [hid] at hgate
    | tick conn =>
      left
      cases hok : s.ok_to_send with
      | true => rfl
      | false =>
        have hc := tick_gate_closed conn s hok
        have hgate2 : s.ok_to_send = true := by
          have h3 : stepEv (Ev.tick conn) s = (tick conn s).state := rfl
          rw [h3, hc] at hgate
          exact hgate
        rw [hok] at hgate2
        exact hgate2
  · intro conn hemit
    cases hok : s.ok_to_send with
    | false =>
      rw [tick_gate_closed conn s hok] at hemit
      exact absurd rfl hemit
    | true =>
      cases hr : s.running with
      | false =>
        rw [tick_not_running conn s hr] at hemit
        exact absurd rfl hemit
      | true =>
        cases hp : s.paused with
        | true =>
          rw [tick_paused conn s hp] at hemit
          exact absurd rfl hemit
        | false =>
          by_cases hd : s.gcode_lines.length ≤ s.index
          · rw [tick_completed conn s hr hp hok hd] at hemit
            exact absurd rfl hemit
          · rw [tick_eligible conn s hr hp hok (Nat.lt_of_not_le hd)]
            exact ⟨rfl, rfl⟩

/-- C1 witness: at a concrete running state an emitting tick closes the gate
and presupposed an open gate; a stop event may open the gate. -/
theorem C1_witness :
    ((tick true ⟨["G1 X1".toList], 0, true, false, true⟩).state.ok_to_send = false ∧
      (⟨["G1 X1".toList], 0, true, false, true⟩ : SenderState).ok_to_send = true) ∧
    ((stepEv Ev.stop ⟨["G1 X1".toList], 0, true, false, false⟩).ok_to_send = true →
      (⟨["G1 X1".toList], 0, true, false, false⟩ : SenderState).ok_to_send = true
      ∨ (∃ raw, Ev.stop = Ev.load raw)
      ∨ (∃ c, Ev.stop = Ev.start c)
      ∨ Ev.stop = Ev.stop
      ∨ ∃ line, Ev.stop = Ev.onLine line ∧ okLine line = true) :=
  ⟨(C1_gate_discipline ⟨["G1 X1".toList], 0, true, false, true⟩ Ev.stop).2 true (by decide),
   (C1_gate_discipline ⟨["G1 X1".toList], 0, true, false, false⟩ Ev.stop).1⟩

/-! ## C9: the state invariant -/

/-- The `SenderState` invariant of spec §3. -/
def senderInv (s : SenderState) : Prop :=
  s.index ≤ s.gcode_lines.length ∧ (s.paused = true → s.running = true)

/-- Every operation preserves the invariant. -/
theorem senderInv_step (s : SenderState) (e : Ev) (h : senderInv s) :
    senderInv (stepEv e s) := by
  cases e with
  | load raw => exact ⟨Nat.zero_le _, fun hp => nomatch hp⟩
  | start conn =>
    show senderInv (start_sending conn s)
    unfold start_sending
    split
    · exact h
    · split
      · exact h
      · exact ⟨h.1, fun _ => rfl⟩
  | pause =>
    show senderInv (pause_sending s)
    unfold pause_sending
    split
    · exact h
    next hr =>
      refine ⟨h.1, fun _ => ?_⟩
      show s.running = true
      cases hrr : s.running with
      | true => rfl
      | false => exact absurd (by simp [hrr]) hr
  | stop => exact ⟨h.1, fun hp => nomatch hp⟩
  | onLine line =>
    show senderInv (on_line_received line s)
    unfold on_line_received
    split
    · exact ⟨h.1, h.2⟩
    · exact h
  | tick conn =>
    show senderInv (tick conn s).state
    cases hok : s.ok_to_send with
    | false => rw [tick_gate_closed conn s hok]; exact h
    | true =>
      cases hr : s.running with
      | false => rw [tick_not_running conn s hr]; exact h
      | true =>
        cases hp : s.paused with
        | true => rw [tick_paused conn s hp]; exact h
        | false =>
          by_cases hd : s.gcode_lines.length ≤ s.index
          · rw [tick_completed conn s hr hp hok hd]
            exact ⟨h.1, fun hX => nomatch hX⟩
          · rw [tick_eligible conn s hr hp hok (Nat.lt_of_not_le hd)]
            exact ⟨Nat.succ_le_of_lt (Nat.lt_of_not_le hd), fun _ => hr⟩

/-- The invariant holds in every reachable state. -/
theorem senderInv_reachable (s : SenderState) (h : Reachable s) : senderInv s := by
  induction h with
  | init => exact ⟨Nat.le_refl 0, fun hp => nomatch hp⟩
  | step t e ht ih => exact senderInv_step t e ih

/-- `index` moves only under the machine's own operations: unchanged, or up
by exactly one on a tick that emitted a line, or reset to 0 by a load. -/
theorem index_change (s : SenderState) (e : Ev) :
    (stepEv e s).index = s.index
    ∨ ((stepEv e s).index = s.index + 1 ∧ ∃ conn, e = Ev.tick conn ∧ (tick conn s).emitted ≠ none)
    ∨ ((stepEv e s).index = 0 ∧ ∃ raw, e = Ev.load raw) := by
  cases e with
  | load raw => exact Or.inr (Or.inr ⟨rfl, raw, rfl⟩)
  | start conn =>
    left
    show (start_sending conn s).index = s.index
    unfold start_sending
    split
    · rfl
    split
    · rfl
    · rfl
  | pause =>
    left
    show (pause_sending s).index = s.index
    unfold pause_sending
    split
    · rfl
    · rfl
  | stop => exact Or.inl rfl
  | onLine line =>
    left
    show (on_line_received line s).index = s.index
    unfold on_line_received
    split
    · rfl
    · rfl
  | tick conn =>
    have hstep : stepEv (Ev.tick conn) s = (tick conn s).state := rfl
    rw [hstep]
    cases hok : s.ok_to_send with
    | false => rw [tick_gate_closed conn s hok]; exact Or.inl rfl
    | true =>
      cases hr : s.running with
      | false => rw [tick_not_running conn s hr]; exact Or.inl rfl
      | true =>
        cases hp : s.paused with
        | true => rw [tick_paused conn s hp]; exact Or.inl rfl
        | false =>
          by_cases hd : s.gcode_lines.length ≤ s.index
          · rw [tick_completed conn s hr hp hok hd]; exact Or.inl rfl
          · refine Or.inr (Or.inl ⟨?_, conn, rfl, ?_⟩)
            · rw [tick_eligible conn s hr hp hok (Nat.lt_of_not_le hd)]
            · rw [tick_eligible conn s hr hp hok (Nat.lt_of_not_le hd)]
              exact fun hX => nomatch hX

/-- C9: in every reachable state `index` stays within `0 ≤ index ≤
length(program)` and `paused` implies `running`; and every operation either
leaves `index` unchanged, advances it by exactly one while emitting a line
(`_tick`), or resets it to 0 (`load`). -/
theorem C9_state_invariant (s : SenderState) (h : Reachable s) :
    (s.index ≤ s.gcode_lines.length ∧ (s.paused = true → s.running = true))
    ∧ ∀ e : Ev,
      (stepEv e s).index = s.index
      ∨ ((stepEv e s).index = s.index + 1 ∧ ∃ conn, e = Ev.tick conn ∧ (tick conn s).emitted ≠ none)
      ∨ ((stepEv e s).index = 0 ∧ ∃ raw, e = Ev.load raw) :=
  ⟨senderInv_reachable s h, fun e => index_change s e⟩

/-- C9 witness: the invariant at the (reachable) initial state, and the index
behaviour of one concrete event from it. -/
theorem C9_witness :
    initState.index ≤ initState.gcode_lines.length ∧
    ((stepEv Ev.stop initState).index = initState.index
      ∨ ((stepEv Ev.stop initState).index = initState.index + 1 ∧
          ∃ conn, Ev.stop = Ev.tick conn ∧ (tick conn initState).emitted ≠ none)
      ∨ ((stepEv Ev.stop initState).index = 0 ∧ ∃ raw, Ev.stop = Ev.load raw)) :=
  ⟨(C9_state_invariant initState Reachable.init).1.1,
   (C9_state_invariant initState Reachable.init).2 Ev.stop⟩

/-! ## Lemmas about stripping and classification -/

/-- `rstrip` keeps a non-whitespace head. -/
theorem rstrip_cons_of_nonspace (c : Char) (r : List Char) (h : isSpace c = false) :
    rstrip (c :: r) = c :: rstrip r := by
  cases h2 : rstrip r with
  | nil =>
    simp only [rstrip]
    rw [h2]
    simp [h]
  | cons d r2 =>
    simp only [rstrip]
    rw [h2]

/-- `strip` drops a whitespace head. -/
theorem strip_cons_of_space (c : Char) (r : List Char) (h : isSpace c = true) :
    strip (c :: r) = strip r := by
  simp [strip, List.dropWhile_cons, h]

/-- `strip` of a list with non-whitespace head only right-strips the tail. -/
theorem strip_cons_of_nonspace (c : Char) (r : List Char) (h : isSpace c = false) :
    strip (c :: r) = c :: rstrip r := by
  simp [strip, List.dropWhile_cons, h, rstrip_cons_of_nonspace c r h]

/-- Whitespace characters are not digits. -/
theorem not_digit_of_space (c : Char) (h : isSpace c = true) : c.isDigit = false := by
  simp only [isSpace, Bool.or_eq_true, decide_eq_true_eq] at h
  rcases h with ((((h | h) | h) | h) | h) | h <;> subst h <;> rfl

/-- No comment (`;` or `(`) starts at a whitespace character. -/
theorem commentStart_cons_space (c : Char) (r : List Char) (h : isSpace c = true) :
    commentStart (c :: r) = false := by
  simp only [isSpace, Bool.or_eq_true, decide_eq_true_eq] at h
  rcases h with ((((h | h) | h) | h) | h) | h <;> subst h <;> rfl

/-- Right-stripping does not change whether the head is a digit. -/
theorem isDigitStart_rstrip (r : List Char) : isDigitStart (rstrip r) = isDigitStart r := by
  cases r with
  | nil => rfl
  | cons c r' =>
    unfold rstrip
    cases h2 : rstrip r' with
    | nil =>
      cases hc : isSpace c with
      | true => simp [h2, hc, isDigitStart, not_digit_of_space c hc]
      | false => simp [h2, hc, isDigitStart]
    | cons d r2 => simp [h2, isDigitStart]

/-- Cutting at a comment start does not change whether the head is a digit
(a comment starts with `;` or `(`, which are not digits). -/
theorem isDigitStart_dropFromComment (r : List Char) :
    isDigitStart (dropFromComment r) = isDigitStart r := by
  cases r with
  | nil => rfl
  | cons c r' =>
    cases h : commentStart (c :: r') with
    | true =>
      have hcs : c = ';' ∨ c = '(' := by
        simp [commentStart] at h
        rcases h with h | ⟨h, _⟩
        · exact Or.inl h
        · exact Or.inr h
      have hd : c.isDigit = false := by
        rcases hcs with h1 | h1 <;> subst h1 <;> rfl
      simp [dropFromComment, h, isDigitStart, hd]
    | false => simp [dropFromComment, h, isDigitStart]

/-- `is_gcode_line` only looks at the stripped line. -/
theorem is_gcode_line_eq_of_strip_eq (a b : List Char) (h : strip a = strip b) :
    is_gcode_line a = is_gcode_line b := by
  unfold is_gcode_line
  rw [h]

/-- The head of `dropWhile isSpace` is not whitespace. -/
theorem dropWhile_head_nonspace (l : List Char) (c : Char) (r : List Char)
    (h : l.dropWhile isSpace = c :: r) : isSpace c = false := by
  induction l with
  | nil => simp [List.dropWhile] at h
  | cons a l ih =>
    rw [List.dropWhile_cons] at h
    by_cases ha : isSpace a = true
    · rw [if_pos ha] at h
      exact ih h
    · rw [if_neg ha] at h
      injection h with h1 h2
      subst h1
      cases hsa : isSpace a with
      | false => rfl
      | true => exact absurd hsa ha

/-- A nonempty `rstrip` keeps the head of its argument. -/
theorem rstrip_cons_head (x : List Char) (c : Char) (r : List Char)
    (h : rstrip x = c :: r) : ∃ r0, x = c :: r0 := by
  cases x with
  | nil => simp [rstrip] at h
  | cons a x' =>
    refine ⟨x', ?_⟩
    unfold rstrip at h
    cases h2 : rstrip x' with
    | nil =>
      rw [h2] at h
      by_cases ha : isSpace a = true
      · rw [if_pos ha] at h
        exact nomatch h
      · rw [if_neg ha] at h
        injection h with h1 _
        rw [h1]
    | cons d r2 =>
      rw [h2] at h
      injection h with h1 _
      rw [h1]

/-- The head of a nonempty stripped line is not whitespace. -/
theorem strip_head_nonspace (l : List Char) (c : Char) (r : List Char)
    (h : strip l = c :: r) : isSpace c = false := by
  unfold strip at h
  obtain ⟨r0, h0⟩ := rstrip_cons_head _ c r h
  exact dropWhile_head_nonspace l c r0 h0

/-- `gcodeHead` on a non-whitespace head. -/
theorem gcodeHead_cons_nonspace (c : Char) (r : List Char) (h : isSpace c = false) :
    gcodeHead (c :: r) =
      (if c = 'G' || c = 'M' || c = 'T' then isDigitStart r
       else c = ';' || c = '#' || c = '(') := by
  simp [gcodeHead, h]

/-- Full evaluation of `is_gcode_line` on a line with non-whitespace head. -/
theorem is_gcode_line_cons_eval (c : Char) (x : List Char) (h : isSpace c = false) :
    is_gcode_line (c :: x) =
      (!(c = ';' || c = '(') &&
        (if c = 'G' || c = 'M' || c = 'T' then isDigitStart x
         else c = ';' || c = '#' || c = '(')) := by
  have h1 : is_gcode_line (c :: x) =
      (!(c :: rstrip x).isEmpty &&
        !(startsWithChar (c :: rstrip x) ';' || startsWithChar (c :: rstrip x) '(') &&
        gcodeHead (c :: rstrip x)) := by
    unfold is_gcode_line
    rw [strip_cons_of_nonspace c x h]
  rw [h1, gcodeHead_cons_nonspace c _ h, isDigitStart_rstrip]
  simp [startsWithChar]

/-- A line whose suffix starts a comment is cut to the empty list. -/
theorem commentStart_drop (x : List Char) (h : commentStart x = true) :
    dropFromComment x = [] := by
  cases x with
  | nil => simp [commentStart] at h
  | cons c r => simp [dropFromComment, h]

/-- Classification commutes with comment stripping: a raw line passes
`is_gcode_line` exactly when its comment-stripped form does.  This is the key
fact making `open_gcode`'s filter-then-strip agree with the specification's
strip-then-filter. -/
theorem is_gcode_line_strip_comment (l : List Char) :
    is_gcode_line (strip_comment l) = is_gcode_line l := by
  induction l with
  | nil => rfl
  | cons c r ih =>
    cases hs : isSpace c with
    | true =>
      have h1 : strip_comment (c :: r) = strip_comment r := by
        unfold strip_comment
        rw [show dropFromComment (c :: r) = c :: dropFromComment r from by
          simp [dropFromComment, commentStart_cons_space c r hs]]
        exact strip_cons_of_space c _ hs
      rw [h1, ih]
      exact (is_gcode_line_eq_of_strip_eq _ _ (strip_cons_of_space c r hs)).symm
    | false =>
      by_cases hsemi : c = ';'
      · subst hsemi
        have e1 : strip_comment (';' :: r) = [] := by
          unfold strip_comment
          rw [commentStart_drop _ (by rfl)]
          rfl
        rw [e1, is_gcode_line_cons_eval ';' r hs]
        simp [is_gcode_line, strip, rstrip, List.dropWhile]
      · by_cases hpar : c = '('
        · subst hpar
          cases hw : wsTailAfterClose r with
          | true =>
            have e1 : strip_comment ('(' :: r) = [] := by
              unfold strip_comment
              rw [commentStart_drop _ (by simp [commentStart, hw])]
              rfl
            rw [e1, is_gcode_line_cons_eval '(' r hs]
            simp [is_gcode_line, strip, rstrip, List.dropWhile]
          | false =>
            have e1 : strip_comment ('(' :: r) = '(' :: rstrip (dropFromComment r) := by
              unfold strip_comment
              rw [show dropFromComment ('(' :: r) = '(' :: dropFromComment r from by
                simp [dropFromComment, commentStart, hw]]
              exact strip_cons_of_nonspace _ _ hs
            rw [e1, is_gcode_line_cons_eval '(' _ hs, is_gcode_line_cons_eval '(' r hs]
            simp
        · have hc0 : commentStart (c :: r) = false := by
            simp [commentStart, hsemi, hpar]
          have e1 : strip_comment (c :: r) = c :: rstrip (dropFromComment r) := by
            unfold strip_comment
            rw [show dropFromComment (c :: r) = c :: dropFromComment r from by
              simp [dropFromComment, hc0]]
            exact strip_cons_of_nonspace _ _ hs
          rw [e1, is_gcode_line_cons_eval c _ hs, is_gcode_line_cons_eval c r hs,
            isDigitStart_rstrip, isDigitStart_dropFromComment]

/-! ## C2: the classifier against its specification -/

/-- The classifier exactly as C2 states it: after trimming, non-empty, not
starting with `;` or `(`, and starting with a letter from G/M/T followed
by a digit. -/
def specSendableClaimed (l : List Char) : Bool :=
  match strip l with
  | [] => false
  | c :: r => !(c = ';') && !(c = '(') && ((c = 'G' || c = 'M' || c = 'T') && isDigitStart r)

/-- The classifier as the code actually behaves: like the claimed version,
but a line whose trimmed form starts with `#` is also sendable
(`GCODE_LINE_RE` has `#` in its alternation and `is_gcode_line` only rules
out `;` and `(` heads). -/
def specSendableAmended (l : List Char) : Bool :=
  match strip l with
  | [] => false
  | c :: r => !(c = ';') && !(c = '(') &&
      (((c = 'G' || c = 'M' || c = 'T') && isDigitStart r) || c = '#')

/-- C2 (counterexample): the claim demands `isSendable` be false for every
line starting with `#`, but `is_gcode_line "#100" = true` — the regex
alternation `[GMT]\d+|;|#|\(` accepts `#` and only `;`/`(` heads are
excluded afterwards. -/
theorem C2_counterexample :
    is_gcode_line ("#100".toList) = true ∧
    specSendableClaimed ("#100".toList) = false := by
  decide

/-- C2 (amended): for every line, `is_gcode_line` is true iff, after
trimming whitespace, the line is non-empty, does not start with `;` or `(`,
and either begins with a letter from G, M, T followed by a digit or begins
with `#`. -/
theorem C2_sendable_amended (l : List Char) :
    is_gcode_line l = specSendableAmended l := by
  unfold specSendableAmended
  cases h : strip l with
  | nil =>
    have : is_gcode_line l = false := by
      unfold is_gcode_line
      rw [h]
      rfl
    rw [this]
  | cons c r =>
    have hc : isSpace c = false := strip_head_nonspace l c r h
    have hl : is_gcode_line l =
        (!(c :: r).isEmpty &&
          !(startsWithChar (c :: r) ';' || startsWithChar (c :: r) '(') &&
          gcodeHead (c :: r)) := by
      unfold is_gcode_line
      rw [h]
    rw [hl, gcodeHead_cons_nonspace c r hc]
    simp only [List.isEmpty_cons, Bool.not_false, Bool.true_and, startsWithChar]
    by_cases hg : (c = 'G' || c = 'M' || c = 'T') = true
    · have hg3 : (c = 'G' ∨ c = 'M') ∨ c = 'T' := by simpa using hg
      rcases hg3 with (h1 | h1) | h1 <;> subst h1 <;> simp
    · have hg2 : (c = 'G' || c = 'M' || c = 'T') = false := by
        cases hgb : (c = 'G' || c = 'M' || c = 'T') with
        | true => exact absurd hgb hg
        | false => rfl
      by_cases h1 : c = ';'
      · subst h1; simp
      · by_cases h2 : c = '('
        · subst h2; simp
        · by_cases h3 : c = '#'
          · subst h3; simp
          · simp [hg2, h1, h2, h3]

/-! ## C3: comment stripping -/

/-- `tail` is the suffix at the *earliest* comment opener of `head ++ tail`:
no nonempty suffix of `head` (continued by `tail`) starts a comment. -/
def noEarlierComment (head tail : List Char) : Bool :=
  head.tails.all (fun s => s.isEmpty || !commentStart (s ++ tail))

/-- When `tail` is the earliest comment opener, `dropFromComment` cuts the
line exactly there. -/
theorem dropFromComment_append (head tail : List Char)
    (hno : noEarlierComment head tail = true) (ht : commentStart tail = true) :
    dropFromComment (head ++ tail) = head := by
  induction head with
  | nil => simpa using commentStart_drop tail ht
  | cons c h2 ih =>
    unfold noEarlierComment at hno
    rw [List.tails_cons, List.all_cons, Bool.and_eq_true] at hno
    have h0 : commentStart (c :: (h2 ++ tail)) = false := by
      have hx := hno.1
      simp only [List.isEmpty_cons, Bool.false_or, Bool.not_eq_true'] at hx
      simpa using hx
    have hno2 : noEarlierComment h2 tail = true := hno.2
    simp [dropFromComment, h0, ih hno2]

/-- C3 (counterexample): `"G1 (a) X2 (b)"` is a sendable line ending with the
trailing parenthesized comment `" (b)"`; the claim says stripping removes
exactly that suffix, leaving `"G1 (a) X2"`, but `COMMENT_RE`'s greedy
`\(.*\)\s*$` branch matches from the *first* `(`, so the code returns
`"G1"`. -/
theorem C3_counterexample :
    is_gcode_line ("G1 (a) X2 (b)".toList) = true ∧
    strip_comment ("G1 (a) X2 (b)".toList) = "G1".toList ∧
    "G1".toList ≠ "G1 (a) X2".toList := by
  decide

/-- C3 (amended): `strip_comment` removes everything from the earliest
comment opener — the first `;`, or the first `(` whose suffix contains a `)`
followed only by whitespace — to the end of the line, and then trims
whitespace; nothing before that opener is removed.  (So a mid-line `(...)`
group *is* removed whenever the line ends in a parenthesized comment.) -/
theorem C3_strip_comment_amended (head tail : List Char)
    (hno : noEarlierComment head tail = true) (ht : commentStart tail = true) :
    strip_comment (head ++ tail) = strip head := by
  unfold strip_comment
  rw [dropFromComment_append head tail hno ht]

/-- C3 witness: the usual trailing `; comment` case at a concrete line. -/
theorem C3_witness :
    noEarlierComment ("G1 X1".toList) ("; move".toList) = true ∧
    commentStart ("; move".toList) = true ∧
    strip_comment ("G1 X1".toList ++ "; move".toList) = strip ("G1 X1".toList) :=
  ⟨by decide, by decide,
   C3_strip_comment_amended ("G1 X1".toList) ("; move".toList) (by decide) (by decide)⟩

/-! ## C8: the program loader -/

/-- The loader as the spec words it: apply `stripTrailingComment` first, then
keep the lines that `isSendable` accepts. -/
def specLoad (raw : List (List Char)) : List (List Char) :=
  raw.filterMap (fun l =>
    if is_gcode_line (strip_comment l) then some (strip_comment l) else none)

/-- C8: loading is deterministic and keeps exactly the sendable lines:
the spec's strip-then-filter description agrees with `open_gcode`'s
filter-then-strip comprehension, and a source all of whose lines are
sendable loads to its full stripped line list, of the same length and in
the original order. -/
theorem C8_loader (raw : List (List Char)) :
    specLoad raw = loadLines raw
    ∧ (raw.all is_gcode_line = true →
        loadLines raw = raw.map strip_comment ∧ (loadLines raw).length = raw.length) := by
  constructor
  · induction raw with
    | nil => rfl
    | cons l raw ih =>
      cases h : is_gcode_line l with
      | true =>
        simp [specLoad, loadLines, List.filterMap_cons, List.filter_cons,
          is_gcode_line_strip_comment, h] at ih ⊢
        exact ih
      | false =>
        simp [specLoad, loadLines, List.filterMap_cons, List.filter_cons,
          is_gcode_line_strip_comment, h] at ih ⊢
        exact ih
  · intro hall
    have hfil : raw.filter (fun l => is_gcode_line l) = raw := by
      rw [List.filter_eq_self]
      intro a ha
      exact List.all_eq_true.mp hall a ha
    constructor
    · unfold loadLines
      rw [hfil]
    · unfold loadLines
      rw [hfil, List.length_map]

/-- C8 witness: a concrete two-line source, all sendable. -/
theorem C8_witness :
    specLoad ["G1 X1 ; move".toList, "G0 Y2".toList] =
      loadLines ["G1 X1 ; move".toList, "G0 Y2".toList] ∧
    loadLines ["G1 X1 ; move".toList, "G0 Y2".toList] =
      ["G1 X1 ; move".toList, "G0 Y2".toList].map strip_comment ∧
    (loadLines ["G1 X1 ; move".toList, "G0 Y2".toList]).length = 2 :=
  ⟨(C8_loader ["G1 X1 ; move".toList, "G0 Y2".toList]).1,
   ((C8_loader ["G1 X1 ; move".toList, "G0 Y2".toList]).2 (by decide)).1,
   ((C8_loader ["G1 X1 ; move".toList, "G0 Y2".toList]).2 (by decide)).2⟩

/-! ## C5: the tool-marker position -/

/-- C5 (counterexample): streaming `["G1 X5", "G1 Y2"]`, the first tick shows
position (5, 0, 0); the second line contains no X token, yet after the
acknowledgment the second tick shows (0, 2, 0) — the X coordinate is rolled
back from 5 to 0 instead of keeping its previously computed value, because
`_tick` reads every axis with `coords.get(axis, 0.0)`. -/
theorem C5_counterexample :
    (tick true ⟨["G1 X5".toList, "G1 Y2".toList], 0, true, false, true⟩).toolPos =
      some (5, 0, 0) ∧
    (tick true (on_line_received ("ok".toList)
        (tick true ⟨["G1 X5".toList, "G1 Y2".toList], 0, true, false, true⟩).state)).toolPos =
      some (0, 2, 0) ∧
    (scanCoords ("G1 Y2".toList.map Char.toUpper)).all (fun p => !(p.1 = 'X')) = true := by
  refine ⟨?_, ?_, rfl⟩
  · have h1 : (tick true ⟨["G1 X5".toList, "G1 Y2".toList], 0, true, false, true⟩).toolPos =
        some (toolFromLine ("G1 X5".toList)) := rfl
    have h2 : toolFromLine ("G1 X5".toList) = (tokenVal false ['5'] [], 0, 0) := rfl
    have h3 : tokenVal false ['5'] [] = 5 := by
      rw [tokenVal]
      norm_num [digitsToNat, show '5'.toNat - '0'.toNat = 5 from rfl]
    rw [h1, h2, h3]
  · have h1 : (tick true (on_line_received ("ok".toList)
        (tick true ⟨["G1 X5".toList, "G1 Y2".toList], 0, true, false, true⟩).state)).toolPos =
        some (toolFromLine ("G1 Y2".toList)) := rfl
    have h2 : toolFromLine ("G1 Y2".toList) = (0, tokenVal false ['2'] [], 0) := rfl
    have h3 : tokenVal false ['2'] [] = 2 := by
      rw [tokenVal]
      norm_num [digitsToNat, show '2'.toNat - '0'.toNat = 2 from rfl]
    rw [h1, h2, h3]

/-- C5 (amended): the position passed to the tool marker on each tick is
computed from the sent line alone — `update_tool` receives
`toolFromLine(line)`, with no reference to any previously shown position —
and every axis letter with no match in the line comes out as 0, so the
marker can jump back toward the origin whenever a sent line omits an axis. -/
theorem C5_position_from_line (s : SenderState) (conn : Bool)
    (hr : s.running = true) (hp : s.paused = false) (hok : s.ok_to_send = true)
    (hlt : s.index < s.gcode_lines.length) :
    (tick conn s).toolPos = some (toolFromLine (s.gcode_lines.getD s.index [])) ∧
    ∀ (ps : List (Char × ℚ)) (a : Char),
      ps.all (fun p => !(p.1 = a)) = true → lastVal ps a = 0 := by
  constructor
  · rw [tick_eligible conn s hr hp hok hlt]
  · intro ps a hall
    unfold lastVal
    have hnone : ps.reverse.find? (fun p => p.1 = a) = none := by
      rw [List.find?_eq_none]
      intro x hx
      have hx2 : x ∈ ps := List.mem_reverse.mp hx
      have hxa := List.all_eq_true.mp hall x hx2
      simp only [Bool.not_eq_true'] at hxa
      simp [hxa]
    rw [hnone]

/-- C5 witness: the amended behaviour at a concrete state, and the default-0
reading of an axis absent from the match list. -/
theorem C5_witness :
    (tick true ⟨["G1 Y2".toList], 0, true, false, true⟩).toolPos =
      some (toolFromLine (["G1 Y2".toList].getD 0 [])) ∧
    lastVal [('Y', (2 : ℚ))] 'X' = 0 :=
  ⟨(C5_position_from_line ⟨["G1 Y2".toList], 0, true, false, true⟩ true rfl rfl rfl
      (by decide)).1,
   (C5_position_from_line ⟨["G1 Y2".toList], 0, true, false, true⟩ true rfl rfl rfl
      (by decide)).2 [('Y', (2 : ℚ))] 'X' (by decide)⟩

end CncSender
